import Mathlib

/-!
Shallow embedding of the loan-service core (Go): the `domain` package's
`Loan` aggregate and lifecycle FSM, and the `service` package's guarded
operations (`internal/service/loan_service.go`, the `Loan` aggregate from
the domain sources).  Monetary values (`float64` in Go) are modelled as
rationals; wall-clock times (`time.Now()`, GORM's `UpdatedAt` stamp) and
freshly generated UUIDs are passed in as explicit parameters.  Fallible Go
methods that mutate their receiver after all guard checks are modelled as
functions into `Except String Loan`: an `Except.error` result corresponds
to the Go early return, which leaves the receiver untouched.
-/

/-- LoanStatus: the four lifecycle states of a loan (`domain.LoanStatus`). -/
inductive LoanStatus where
  | proposed
  | approved
  | invested
  | disbursed
deriving DecidableEq, Repr

/-- ApprovalDetails: information recorded at approval (`domain.ApprovalDetails`).
`approvalDate` is stamped with the current time by the service. -/
structure ApprovalDetails where
  fieldValidatorProof : String
  fieldValidatorID : String
  approvalDate : Nat
deriving DecidableEq, Repr

/-- DisbursementDetails: information recorded at disbursement
(`domain.DisbursementDetails`). -/
structure DisbursementDetails where
  signedAgreementLink : String
  fieldOfficerID : String
  disbursementDate : Nat
deriving DecidableEq, Repr

/-- Investment: one investment record (`domain.Investment`).  The GORM-managed
`CreatedAt`/`UpdatedAt` persistence timestamps, which are zero in the struct
literal built by `AddInvestment` and only stamped at save time, are elided. -/
structure Investment where
  id : String
  loanID : String
  investorID : String
  amount : ℚ
deriving DecidableEq, Repr

/-- Loan: the aggregate root (`domain.Loan`).  The GORM soft-delete marker
`DeletedAt` (pure persistence mechanics) is elided. -/
structure Loan where
  id : String
  borrowerID : String
  principalAmount : ℚ
  rate : ℚ
  roi : ℚ
  agreementLetterLink : String
  status : LoanStatus
  approvalDetails : Option ApprovalDetails
  investments : List Investment
  totalInvested : ℚ
  disbursementDetails : Option DisbursementDetails
  createdAt : Nat
  updatedAt : Nat
deriving DecidableEq, Repr

/-- Loan.CanUpdate: the loan can be updated only in proposed status. -/
def Loan.CanUpdate (l : Loan) : Bool :=
  l.status == .proposed

/-- Loan.CanDelete: the loan can be deleted only in proposed status. -/
def Loan.CanDelete (l : Loan) : Bool :=
  l.status == .proposed

/-- Loan.CanApprove: the loan can be approved only in proposed status. -/
def Loan.CanApprove (l : Loan) : Bool :=
  l.status == .proposed

/-- Loan.CanInvest: the loan can receive investments only in approved status. -/
def Loan.CanInvest (l : Loan) : Bool :=
  l.status == .approved

/-- Loan.CanDisburse: the loan can be disbursed only when invested and fully
funded (`l.Status == StatusInvested && l.TotalInvested >= l.PrincipalAmount`). -/
def Loan.CanDisburse (l : Loan) : Bool :=
  l.status == .invested && decide (l.totalInvested ≥ l.principalAmount)

/-- Loan.AddInvestment: guard on approved status, then on the investment cap,
then append the investment record, accumulate `totalInvested`, and
auto-transition to invested once `totalInvested ≥ principalAmount`.  The Go
method draws a fresh UUID for the investment internally; that fresh id is the
`freshID` parameter here. -/
def Loan.AddInvestment (l : Loan) (investorID : String) (amount : ℚ)
    (freshID : String) : Except String Loan :=
  if !l.CanInvest then
    .error "loan is not in approved status"
  else if l.totalInvested + amount > l.principalAmount then
    .error "total investment amount would exceed loan principal"
  else
    let investment : Investment :=
      { id := freshID, loanID := l.id, investorID := investorID, amount := amount }
    let l' : Loan :=
      { l with investments := l.investments ++ [investment],
               totalInvested := l.totalInvested + amount }
    if l'.totalInvested ≥ l'.principalAmount then
      .ok { l' with status := .invested }
    else
      .ok l'

/-- StateTransition: one edge of the lifecycle graph (`domain.StateTransition`). -/
structure StateTransition where
  fromState : LoanStatus
  toState : LoanStatus
  action : String
deriving DecidableEq, Repr

/-- FSM: the loan lifecycle state machine (`domain.FSM`). -/
structure FSM where
  currentState : LoanStatus
  transitions : List StateTransition
deriving DecidableEq, Repr

/-- NewFSM: the fixed three-edge lifecycle graph (`domain.NewFSM`). -/
def NewFSM : FSM :=
  { currentState := .proposed,
    transitions :=
      [ { fromState := .proposed, toState := .approved, action := "approve" },
        { fromState := .approved, toState := .invested, action := "invest" },
        { fromState := .invested, toState := .disbursed, action := "disburse" } ] }

/-- FSM.CanTransition: an edge from the current state to `target` exists. -/
def FSM.CanTransition (fsm : FSM) (target : LoanStatus) : Bool :=
  fsm.transitions.any fun t => t.fromState == fsm.currentState && t.toState == target

/-- FSM.Transition: move to `target` along a declared edge, else fail. -/
def FSM.Transition (fsm : FSM) (target : LoanStatus) : Except String FSM :=
  if !fsm.CanTransition target then
    .error "invalid state transition"
  else
    .ok { fsm with currentState := target }

/-- FSM.GetCurrentState: the current state. -/
def FSM.GetCurrentState (fsm : FSM) : LoanStatus :=
  fsm.currentState

/-- FSM.SetCurrentState: set the current state (used when loading a loan). -/
def FSM.SetCurrentState (fsm : FSM) (state : LoanStatus) : FSM :=
  { fsm with currentState := state }

/-- FSM.GetValidTransitions: all edges leaving the current state. -/
def FSM.GetValidTransitions (fsm : FSM) : List StateTransition :=
  fsm.transitions.filter fun t => t.fromState == fsm.currentState

/-- generateAgreementLetterLink from the service package: the agreement letter
link is a fixed function of the loan id. -/
def generateAgreementLetterLink (loanID : String) : String :=
  "https://example.com/agreements/loan_" ++ loanID ++ "_agreement.pdf"

/-- UpdateLoanRequest: the four optional fields the service's `UpdateLoan`
applies from the caller-supplied update map (`dto.UpdateLoanRequest`). -/
structure UpdateLoanRequest where
  principalAmount : Option ℚ
  rate : Option ℚ
  roi : Option ℚ
  agreementLetterLink : Option String
deriving DecidableEq, Repr

/-- loanService.CreateLoan: force status to proposed and `totalInvested` to 0
on the caller-built loan, then persist it. -/
def createLoan (l : Loan) : Loan :=
  { l with status := .proposed, totalInvested := 0 }

/-- loanService.ApproveLoan on a loaded loan: guard `CanApprove`, consult the
lifecycle FSM for the proposed→approved edge, store the approval details with
`approvalDate` stamped to now, persist (GORM stamps `updatedAt`). -/
def approveLoan (l : Loan) (approvalDetails : ApprovalDetails) (now : Nat) :
    Except String Loan :=
  if !l.CanApprove then
    .error "can only approve loans in proposed status"
  else
    match (NewFSM.SetCurrentState l.status).Transition .approved with
    | .error e => .error e
    | .ok fsm =>
        .ok { l with status := fsm.GetCurrentState,
                     approvalDetails := some { approvalDetails with approvalDate := now },
                     updatedAt := now }

/-- loanService.InvestInLoan on a loaded loan: delegate to `Loan.AddInvestment`,
then auto-generate the agreement letter link when the loan has just become
invested, and persist (GORM stamps `updatedAt`). -/
def investInLoan (l : Loan) (investorID : String) (amount : ℚ) (freshID : String)
    (now : Nat) : Except String Loan :=
  match l.AddInvestment investorID amount freshID with
  | .error e => .error e
  | .ok l' =>
      let l'' : Loan :=
        if l'.status == .invested then
          { l' with agreementLetterLink := generateAgreementLetterLink l'.id }
        else
          l'
      .ok { l'' with updatedAt := now }

/-- loanService.DisburseLoan on a loaded loan: guard `CanDisburse`, consult the
lifecycle FSM for the invested→disbursed edge, store the disbursement details
with `disbursementDate` stamped to now, persist (GORM stamps `updatedAt`). -/
def disburseLoan (l : Loan) (disbursementDetails : DisbursementDetails) (now : Nat) :
    Except String Loan :=
  if !l.CanDisburse then
    .error "can only disburse fully invested loans"
  else
    match (NewFSM.SetCurrentState l.status).Transition .disbursed with
    | .error e => .error e
    | .ok fsm =>
        .ok { l with status := fsm.GetCurrentState,
                     disbursementDetails :=
                       some { disbursementDetails with disbursementDate := now },
                     updatedAt := now }

/-- loanService.UpdateLoan on a loaded loan: guard `CanUpdate`, then apply each
present field of the update request, persist (GORM stamps `updatedAt`). -/
def updateLoan (l : Loan) (updates : UpdateLoanRequest) (now : Nat) :
    Except String Loan :=
  if !l.CanUpdate then
    .error "can only update loans in proposed status"
  else
    let l₁ : Loan :=
      match updates.principalAmount with
      | some p => { l with principalAmount := p }
      | none => l
    let l₂ : Loan :=
      match updates.rate with
      | some r => { l₁ with rate := r }
      | none => l₁
    let l₃ : Loan :=
      match updates.roi with
      | some r => { l₂ with roi := r }
      | none => l₂
    let l₄ : Loan :=
      match updates.agreementLetterLink with
      | some a => { l₃ with agreementLetterLink := a }
      | none => l₃
    .ok { l₄ with updatedAt := now }

/-- loanService.DeleteLoan on a loaded loan: guard `CanDelete`, then delete the
record from the store. -/
def deleteLoan (l : Loan) : Except String Unit :=
  if !l.CanDelete then
    .error "can only delete loans in proposed status"
  else
    .ok ()

/-- Op: one guarded service operation on a single loan aggregate, with the
nondeterministic inputs (details, fresh UUID, current time) made explicit. -/
inductive Op where
  | approve (details : ApprovalDetails) (now : Nat)
  | invest (investorID : String) (amount : ℚ) (freshID : String) (now : Nat)
  | disburse (details : DisbursementDetails) (now : Nat)
  | update (updates : UpdateLoanRequest) (now : Nat)
  | delete
deriving DecidableEq, Repr

/-- runOp: dispatch one guarded operation to the corresponding service call.
A successful delete removes the record from the store without changing the
aggregate value itself, so it yields the loan unchanged here; a failed delete
is the service error. -/
def runOp : Op → Loan → Except String Loan
  | .approve d now, l => approveLoan l d now
  | .invest inv a fid now, l => investInLoan l inv a fid now
  | .disburse d now, l => disburseLoan l d now
  | .update u now, l => updateLoan l u now
  | .delete, l =>
      match deleteLoan l with
      | .ok _ => .ok l
      | .error e => .error e

/-- applyOp: the persisted state after one operation attempt — the updated
loan on success, the unchanged loan on failure (the service returns before
persisting anything on every error path). -/
def applyOp (op : Op) (l : Loan) : Loan :=
  match runOp op l with
  | .ok l' => l'
  | .error _ => l

/-- applyOps: the persisted state after a sequence of operation attempts. -/
def applyOps (ops : List Op) (l : Loan) : Loan :=
  ops.foldl (fun s op => applyOp op s) l

/-- Op.isInvest: whether the operation is an investment. -/
def Op.isInvest : Op → Bool
  | .invest _ _ _ _ => true
  | _ => false

/-- Op.isUpdate: whether the operation is a field update. -/
def Op.isUpdate : Op → Bool
  | .update _ _ => true
  | _ => false

/-! ### Characterization lemmas for the guarded operations -/

/-- A loan that is not in approved status cannot receive an investment. -/
theorem AddInvestment_not_approved (l : Loan) (inv : String) (a : ℚ) (fid : String)
    (h : l.status ≠ .approved) :
    l.AddInvestment inv a fid = .error "loan is not in approved status" := by
  have hb : (l.status == .approved) = false := beq_eq_false_iff_ne.mpr h
  simp [Loan.AddInvestment, Loan.CanInvest, hb]

/-- An investment that would push the total over the principal is rejected. -/
theorem AddInvestment_exceeds (l : Loan) (inv : String) (a : ℚ) (fid : String)
    (h : l.status = .approved) (hx : l.totalInvested + a > l.principalAmount) :
    l.AddInvestment inv a fid =
      .error "total investment amount would exceed loan principal" := by
  simp [Loan.AddInvestment, Loan.CanInvest, h, hx]

/-- A capacity-respecting investment on an approved loan that reaches the
principal is accepted and flips the status to invested. -/
theorem AddInvestment_ok_funded (l : Loan) (inv : String) (a : ℚ) (fid : String)
    (h : l.status = .approved) (hx : l.totalInvested + a ≤ l.principalAmount)
    (hf : l.principalAmount ≤ l.totalInvested + a) :
    l.AddInvestment inv a fid =
      .ok { l with
              investments := l.investments ++
                [{ id := fid, loanID := l.id, investorID := inv, amount := a }],
              totalInvested := l.totalInvested + a,
              status := .invested } := by
  have h2 : ¬ (l.totalInvested + a > l.principalAmount) := not_lt.mpr hx
  simp [Loan.AddInvestment, Loan.CanInvest, h, h2, hf]

/-- A capacity-respecting investment on an approved loan that stays strictly
below the principal is accepted and leaves the status approved. -/
theorem AddInvestment_ok_notFunded (l : Loan) (inv : String) (a : ℚ) (fid : String)
    (h : l.status = .approved) (hnf : l.totalInvested + a < l.principalAmount) :
    l.AddInvestment inv a fid =
      .ok { l with
              investments := l.investments ++
                [{ id := fid, loanID := l.id, investorID := inv, amount := a }],
              totalInvested := l.totalInvested + a } := by
  have h2 : ¬ (l.totalInvested + a > l.principalAmount) := not_lt.mpr hnf.le
  have h3 : ¬ (l.principalAmount ≤ l.totalInvested + a) := not_le.mpr hnf
  simp [Loan.AddInvestment, Loan.CanInvest, h, h2, h3]

/-- Approving a proposed loan succeeds with the expected field changes. -/
theorem approveLoan_proposed (l : Loan) (d : ApprovalDetails) (now : Nat)
    (h : l.status = .proposed) :
    approveLoan l d now =
      .ok { l with status := .approved,
                   approvalDetails := some { d with approvalDate := now },
                   updatedAt := now } := by
  simp [approveLoan, Loan.CanApprove, h, FSM.SetCurrentState, FSM.Transition,
        FSM.CanTransition, NewFSM, FSM.GetCurrentState]

/-- Approving a loan that is not proposed fails with the service error. -/
theorem approveLoan_not_proposed (l : Loan) (d : ApprovalDetails) (now : Nat)
    (h : l.status ≠ .proposed) :
    approveLoan l d now = .error "can only approve loans in proposed status" := by
  have hb : (l.status == .proposed) = false := beq_eq_false_iff_ne.mpr h
  simp [approveLoan, Loan.CanApprove, hb]

/-- Disbursing an invested, fully funded loan succeeds with the expected
field changes. -/
theorem disburseLoan_ok (l : Loan) (d : DisbursementDetails) (now : Nat)
    (h : l.status = .invested) (hf : l.principalAmount ≤ l.totalInvested) :
    disburseLoan l d now =
      .ok { l with status := .disbursed,
                   disbursementDetails := some { d with disbursementDate := now },
                   updatedAt := now } := by
  simp [disburseLoan, Loan.CanDisburse, h, hf, FSM.SetCurrentState, FSM.Transition,
        FSM.CanTransition, NewFSM, FSM.GetCurrentState]

/-- Disbursing fails with the service error whenever the loan is not an
invested, fully funded loan. -/
theorem disburseLoan_fail (l : Loan) (d : DisbursementDetails) (now : Nat)
    (h : ¬ (l.status = .invested ∧ l.principalAmount ≤ l.totalInvested)) :
    disburseLoan l d now = .error "can only disburse fully invested loans" := by
  have hb : l.CanDisburse = false := by
    by_cases hs : l.status = .invested
    · have ht : ¬ l.principalAmount ≤ l.totalInvested := fun hf => h ⟨hs, hf⟩
      simp [Loan.CanDisburse, hs, ht]
    · have hbs : (l.status == .invested) = false := beq_eq_false_iff_ne.mpr hs
      simp [Loan.CanDisburse, hbs]
  simp [disburseLoan, hb]

/-- Updating a loan that is not proposed fails with the service error. -/
theorem updateLoan_not_proposed (l : Loan) (u : UpdateLoanRequest) (now : Nat)
    (h : l.status ≠ .proposed) :
    updateLoan l u now = .error "can only update loans in proposed status" := by
  have hb : (l.status == .proposed) = false := beq_eq_false_iff_ne.mpr h
  simp [updateLoan, Loan.CanUpdate, hb]

/-- Updating a proposed loan succeeds and applies exactly the present fields. -/
theorem updateLoan_proposed (l : Loan) (u : UpdateLoanRequest) (now : Nat)
    (h : l.status = .proposed) :
    updateLoan l u now =
      .ok { l with principalAmount := u.principalAmount.getD l.principalAmount,
                   rate := u.rate.getD l.rate,
                   roi := u.roi.getD l.roi,
                   agreementLetterLink :=
                     u.agreementLetterLink.getD l.agreementLetterLink,
                   updatedAt := now } := by
  obtain ⟨p, r, i, a⟩ := u
  cases p <;> cases r <;> cases i <;> cases a <;>
    simp [updateLoan, Loan.CanUpdate, h, Option.getD]

/-- Deleting a loan that is not proposed fails with the service error. -/
theorem deleteLoan_not_proposed (l : Loan)
    (h : l.status ≠ .proposed) :
    deleteLoan l = .error "can only delete loans in proposed status" := by
  have hb : (l.status == .proposed) = false := beq_eq_false_iff_ne.mpr h
  simp [deleteLoan, Loan.CanDelete, hb]

/-- A delete attempt never changes the aggregate value itself. -/
theorem applyOp_delete (l : Loan) : applyOp .delete l = l := by
  simp only [applyOp, runOp, deleteLoan]
  split
  · split at * <;> simp_all
  · rfl

/-- A failed operation leaves the persisted loan unchanged. -/
theorem applyOp_of_error (op : Op) (l : Loan) (e : String)
    (h : runOp op l = .error e) : applyOp op l = l := by
  simp [applyOp, h]

/-- A successful operation persists the returned loan. -/
theorem applyOp_of_ok (op : Op) (l l' : Loan)
    (h : runOp op l = .ok l') : applyOp op l = l' := by
  simp [applyOp, h]

/-- Investing through the service on a non-approved loan fails with the
aggregate's status error. -/
theorem investInLoan_not_approved (l : Loan) (inv : String) (a : ℚ) (fid : String)
    (now : Nat) (h : l.status ≠ .approved) :
    investInLoan l inv a fid now = .error "loan is not in approved status" := by
  simp [investInLoan, AddInvestment_not_approved l inv a fid h]

/-- Investing through the service past the cap fails with the aggregate's
limit error. -/
theorem investInLoan_exceeds (l : Loan) (inv : String) (a : ℚ) (fid : String)
    (now : Nat) (h : l.status = .approved)
    (hx : l.totalInvested + a > l.principalAmount) :
    investInLoan l inv a fid now =
      .error "total investment amount would exceed loan principal" := by
  simp [investInLoan, AddInvestment_exceeds l inv a fid h hx]

/-- Investing through the service up to (or exactly at) the principal flips the
loan to invested and generates the agreement letter link. -/
theorem investInLoan_ok_funded (l : Loan) (inv : String) (a : ℚ) (fid : String)
    (now : Nat) (h : l.status = .approved)
    (hx : l.totalInvested + a ≤ l.principalAmount)
    (hf : l.principalAmount ≤ l.totalInvested + a) :
    investInLoan l inv a fid now =
      .ok { l with
              investments := l.investments ++
                [{ id := fid, loanID := l.id, investorID := inv, amount := a }],
              totalInvested := l.totalInvested + a,
              status := .invested,
              agreementLetterLink := generateAgreementLetterLink l.id,
              updatedAt := now } := by
  simp [investInLoan, AddInvestment_ok_funded l inv a fid h hx hf]

/-- Investing through the service strictly below the principal keeps the loan
approved and does not touch the agreement letter link. -/
theorem investInLoan_ok_notFunded (l : Loan) (inv : String) (a : ℚ) (fid : String)
    (now : Nat) (h : l.status = .approved)
    (hnf : l.totalInvested + a < l.principalAmount) :
    investInLoan l inv a fid now =
      .ok { l with
              investments := l.investments ++
                [{ id := fid, loanID := l.id, investorID := inv, amount := a }],
              totalInvested := l.totalInvested + a,
              updatedAt := now } := by
  simp [investInLoan, AddInvestment_ok_notFunded l inv a fid h hnf, h]

/-- statusRank: position of a status in the forward lifecycle order. -/
def statusRank : LoanStatus → Nat
  | .proposed => 0
  | .approved => 1
  | .invested => 2
  | .disbursed => 3

/-- C4: for every loan and every guarded operation attempt, the persisted
status either stays put or advances to the immediate successor in the order
Proposed, Approved, Invested, Disbursed — so over any sequence of guarded
operations the status never regresses and never skips a state. -/
theorem c4_status_forward (op : Op) (l : Loan) :
    statusRank (applyOp op l).status = statusRank l.status ∨
    statusRank (applyOp op l).status = statusRank l.status + 1 := by
  cases op with
  | approve d now =>
      by_cases hs : l.status = .proposed
      · rw [applyOp_of_ok (.approve d now) l _ (approveLoan_proposed l d now hs)]
        right
        simp [statusRank, hs]
      · rw [applyOp_of_error (.approve d now) l _ (approveLoan_not_proposed l d now hs)]
        left
        rfl
  | invest inv a fid now =>
      by_cases hs : l.status = .approved
      · by_cases hx : l.totalInvested + a > l.principalAmount
        · rw [applyOp_of_error (.invest inv a fid now) l _
              (investInLoan_exceeds l inv a fid now hs hx)]
          left
          rfl
        · have hx' : l.totalInvested + a ≤ l.principalAmount := not_lt.mp hx
          by_cases hf : l.principalAmount ≤ l.totalInvested + a
          · rw [applyOp_of_ok (.invest inv a fid now) l _
                (investInLoan_ok_funded l inv a fid now hs hx' hf)]
            right
            simp [statusRank, hs]
          · have hnf : l.totalInvested + a < l.principalAmount := not_le.mp hf
            rw [applyOp_of_ok (.invest inv a fid now) l _
                (investInLoan_ok_notFunded l inv a fid now hs hnf)]
            left
            rfl
      · rw [applyOp_of_error (.invest inv a fid now) l _
            (investInLoan_not_approved l inv a fid now hs)]
        left
        rfl
  | disburse d now =>
      by_cases hc : l.status = .invested ∧ l.principalAmount ≤ l.totalInvested
      · rw [applyOp_of_ok (.disburse d now) l _ (disburseLoan_ok l d now hc.1 hc.2)]
        right
        simp [statusRank, hc.1]
      · rw [applyOp_of_error (.disburse d now) l _ (disburseLoan_fail l d now hc)]
        left
        rfl
  | update u now =>
      by_cases hs : l.status = .proposed
      · rw [applyOp_of_ok (.update u now) l _ (updateLoan_proposed l u now hs)]
        left
        rfl
      · rw [applyOp_of_error (.update u now) l _ (updateLoan_not_proposed l u now hs)]
        left
        rfl
  | delete =>
      rw [applyOp_delete]
      left
      rfl

/-- OpValid: the input constraints the excluded validation layer enforces on
an operation before the core is invoked — investment amounts and any updated
principal are positive (here only the nonnegativity of the updated principal
is needed). -/
def OpValid : Op → Prop
  | .invest _ a _ _ => 0 < a
  | .update u _ => ∀ p, u.principalAmount = some p → 0 ≤ p
  | _ => True

/-- LoanAmountInvariant: the running total of investments lies between zero
and the principal. -/
def LoanAmountInvariant (l : Loan) : Prop :=
  0 ≤ l.totalInvested ∧ l.totalInvested ≤ l.principalAmount

/-- StrongInv: the amount invariant, strengthened by the fact that a proposed
loan has no investments yet (needed because updates may lower the principal
but are only permitted while proposed). -/
def StrongInv (l : Loan) : Prop :=
  LoanAmountInvariant l ∧ (l.status = .proposed → l.totalInvested = 0)

/-- One validated guarded operation preserves the strengthened invariant. -/
theorem strongInv_applyOp (op : Op) (l : Loan) (hv : OpValid op)
    (h : StrongInv l) : StrongInv (applyOp op l) := by
  obtain ⟨⟨h0, h1⟩, h2⟩ := h
  cases op with
  | approve d now =>
      by_cases hs : l.status = .proposed
      · rw [applyOp_of_ok (.approve d now) l _ (approveLoan_proposed l d now hs)]
        exact ⟨⟨h0, h1⟩, fun hc => by simp at hc⟩
      · rw [applyOp_of_error (.approve d now) l _ (approveLoan_not_proposed l d now hs)]
        exact ⟨⟨h0, h1⟩, h2⟩
  | invest inv a fid now =>
      have ha : 0 < a := hv
      by_cases hs : l.status = .approved
      · by_cases hx : l.totalInvested + a > l.principalAmount
        · rw [applyOp_of_error (.invest inv a fid now) l _
              (investInLoan_exceeds l inv a fid now hs hx)]
          exact ⟨⟨h0, h1⟩, h2⟩
        · have hx' : l.totalInvested + a ≤ l.principalAmount := not_lt.mp hx
          by_cases hf : l.principalAmount ≤ l.totalInvested + a
          · rw [applyOp_of_ok (.invest inv a fid now) l _
                (investInLoan_ok_funded l inv a fid now hs hx' hf)]
            exact ⟨⟨add_nonneg h0 ha.le, hx'⟩, fun hc => by simp at hc⟩
          · have hnf : l.totalInvested + a < l.principalAmount := not_le.mp hf
            rw [applyOp_of_ok (.invest inv a fid now) l _
                (investInLoan_ok_notFunded l inv a fid now hs hnf)]
            refine ⟨⟨add_nonneg h0 ha.le, hx'⟩, fun hc => ?_⟩
            rw [hs] at hc
            cases hc
      · rw [applyOp_of_error (.invest inv a fid now) l _
            (investInLoan_not_approved l inv a fid now hs)]
        exact ⟨⟨h0, h1⟩, h2⟩
  | disburse d now =>
      by_cases hc : l.status = .invested ∧ l.principalAmount ≤ l.totalInvested
      · rw [applyOp_of_ok (.disburse d now) l _ (disburseLoan_ok l d now hc.1 hc.2)]
        exact ⟨⟨h0, h1⟩, fun hp => by simp at hp⟩
      · rw [applyOp_of_error (.disburse d now) l _ (disburseLoan_fail l d now hc)]
        exact ⟨⟨h0, h1⟩, h2⟩
  | update u now =>
      by_cases hs : l.status = .proposed
      · rw [applyOp_of_ok (.update u now) l _ (updateLoan_proposed l u now hs)]
        have ht : l.totalInvested = 0 := h2 hs
        have hp : (0 : ℚ) ≤ u.principalAmount.getD l.principalAmount := by
          cases hu : u.principalAmount with
          | none => simpa [hu] using le_trans h0 h1
          | some p => simpa [hu] using hv p hu
        exact ⟨⟨h0, by rw [ht] at *; exact hp⟩, fun _ => ht⟩
      · rw [applyOp_of_error (.update u now) l _ (updateLoan_not_proposed l u now hs)]
        exact ⟨⟨h0, h1⟩, h2⟩
  | delete =>
      rw [applyOp_delete]
      exact ⟨⟨h0, h1⟩, h2⟩

/-- A sequence of validated guarded operations preserves the strengthened
invariant. -/
theorem strongInv_applyOps (ops : List Op) (l : Loan) (h : StrongInv l)
    (hops : ∀ op ∈ ops, OpValid op) : StrongInv (applyOps ops l) := by
  induction ops generalizing l with
  | nil => exact h
  | cons op rest ih =>
      have hstep := strongInv_applyOp op l (hops op (by simp)) h
      have hrest : ∀ o ∈ rest, OpValid o := fun o ho => hops o (by simp [ho])
      simpa [applyOps] using ih (applyOp op l) hstep hrest

/-- sampleApproval: concrete approval details for witnesses. -/
def sampleApproval : ApprovalDetails :=
  { fieldValidatorProof := "https://img.example.com/proof.jpg",
    fieldValidatorID := "validator-1", approvalDate := 0 }

/-- sampleDisbursement: concrete disbursement details for witnesses. -/
def sampleDisbursement : DisbursementDetails :=
  { signedAgreementLink := "https://example.com/signed.pdf",
    fieldOfficerID := "officer-1", disbursementDate := 0 }

/-- baseLoan: a freshly proposed concrete loan with principal 100. -/
def baseLoan : Loan :=
  { id := "loan-1", borrowerID := "borrower-1", principalAmount := 100,
    rate := 5, roi := 6, agreementLetterLink := "", status := .proposed,
    approvalDetails := none, investments := [], totalInvested := 0,
    disbursementDetails := none, createdAt := 0, updatedAt := 0 }

/-- C1 counterexample: starting from creation with principal 100, the guarded
sequence approve, addInvestment(-50) is accepted by the code — the aggregate
never re-checks that the amount is positive — and drives `totalInvested`
to -50, violating `0 ≤ totalInvested`. -/
theorem c1_counterexample :
    ¬ (0 ≤ (applyOps [Op.approve sampleApproval 1, Op.invest "bob" (-50) "inv-1" 2]
        (createLoan baseLoan)).totalInvested) := by
  norm_num [applyOps, applyOp, runOp, approveLoan, investInLoan, Loan.AddInvestment,
    createLoan, baseLoan, sampleApproval, Loan.CanApprove, Loan.CanInvest,
    FSM.SetCurrentState, FSM.Transition, FSM.CanTransition, NewFSM,
    FSM.GetCurrentState]
  split <;> norm_num

/-- C1 (amended): for every loan created with a nonnegative principal and
every sequence of guarded operations whose inputs satisfy the validation
layer's constraints (positive investment amounts, nonnegative updated
principal), the invariant `0 ≤ totalInvested ≤ principalAmount` holds after
every operation, whether the operation succeeds or fails. -/
theorem c1_amended_invariant (l0 : Loan) (ops : List Op)
    (h0 : 0 ≤ l0.principalAmount) (hops : ∀ op ∈ ops, OpValid op) :
    0 ≤ (applyOps ops (createLoan l0)).totalInvested ∧
    (applyOps ops (createLoan l0)).totalInvested ≤
      (applyOps ops (createLoan l0)).principalAmount := by
  have hinit : StrongInv (createLoan l0) := ⟨⟨le_refl 0, h0⟩, fun _ => rfl⟩
  exact (strongInv_applyOps ops (createLoan l0) hinit hops).1

/-- C1 witness: the amended invariant theorem applied to a concrete funded
run of the loan lifecycle. -/
theorem c1_amended_invariant_witness :
    0 ≤ (applyOps [Op.approve sampleApproval 1, Op.invest "bob" 40 "inv-1" 2,
          Op.invest "carol" 60 "inv-2" 3] (createLoan baseLoan)).totalInvested ∧
    (applyOps [Op.approve sampleApproval 1, Op.invest "bob" 40 "inv-1" 2,
          Op.invest "carol" 60 "inv-2" 3] (createLoan baseLoan)).totalInvested ≤
      (applyOps [Op.approve sampleApproval 1, Op.invest "bob" 40 "inv-1" 2,
          Op.invest "carol" 60 "inv-2" 3] (createLoan baseLoan)).principalAmount :=
  c1_amended_invariant baseLoan
    [Op.approve sampleApproval 1, Op.invest "bob" 40 "inv-1" 2,
     Op.invest "carol" 60 "inv-2" 3]
    (by norm_num [baseLoan])
    (by simp [OpValid])

/-- approvedLoan: the base loan after moving to approved status. -/
def approvedLoan : Loan := { baseLoan with status := .approved }

/-- investedLoan: the base loan fully funded and in invested status. -/
def investedLoan : Loan := { baseLoan with status := .invested, totalInvested := 100 }

/-- C2: on an approved loan, a capacity-respecting addInvestment succeeds and
sets the status to invested exactly when the new total reaches the principal
(otherwise the status stays approved); no other guarded operation ever moves a
loan into invested status, and creation starts every loan as proposed. -/
theorem c2_invested_transition :
    (∀ (l : Loan) (inv : String) (a : ℚ) (fid : String),
      l.status = .approved → l.totalInvested + a ≤ l.principalAmount →
      ∃ l', l.AddInvestment inv a fid = .ok l' ∧
        (l'.status = .invested ↔ l.principalAmount ≤ l.totalInvested + a) ∧
        (¬ l.principalAmount ≤ l.totalInvested + a → l'.status = .approved)) ∧
    (∀ (op : Op) (l : Loan), op.isInvest = false →
      (applyOp op l).status = .invested → l.status = .invested) ∧
    (∀ l : Loan, (createLoan l).status = .proposed) := by
  refine ⟨?_, ?_, fun _ => rfl⟩
  · intro l inv a fid hs hx
    by_cases hf : l.principalAmount ≤ l.totalInvested + a
    · exact ⟨_, AddInvestment_ok_funded l inv a fid hs hx hf,
        ⟨fun _ => hf, fun _ => rfl⟩, fun hc => absurd hf hc⟩
    · refine ⟨_, AddInvestment_ok_notFunded l inv a fid hs (not_le.mp hf), ?_, ?_⟩
      · constructor
        · intro hc
          simp [hs] at hc
        · intro hc
          exact absurd hc hf
      · intro _
        exact hs
  · intro op l hni h'
    cases op with
    | approve d now =>
        by_cases hs : l.status = .proposed
        · rw [applyOp_of_ok (.approve d now) l _ (approveLoan_proposed l d now hs)] at h'
          simp at h'
        · rwa [applyOp_of_error (.approve d now) l _
            (approveLoan_not_proposed l d now hs)] at h'
    | invest inv a fid now => simp [Op.isInvest] at hni
    | disburse d now =>
        by_cases hc : l.status = .invested ∧ l.principalAmount ≤ l.totalInvested
        · exact hc.1
        · rwa [applyOp_of_error (.disburse d now) l _ (disburseLoan_fail l d now hc)] at h'
    | update u now =>
        by_cases hs : l.status = .proposed
        · rw [applyOp_of_ok (.update u now) l _ (updateLoan_proposed l u now hs)] at h'
          exact h'
        · rwa [applyOp_of_error (.update u now) l _
            (updateLoan_not_proposed l u now hs)] at h'
    | delete => rwa [applyOp_delete] at h'

/-- C2 witness: a concrete fully funding investment on an approved loan. -/
theorem c2_invested_transition_witness :
    ∃ l', approvedLoan.AddInvestment "bob" 100 "inv-1" = .ok l' ∧
      (l'.status = .invested ↔
        approvedLoan.principalAmount ≤ approvedLoan.totalInvested + 100) ∧
      (¬ approvedLoan.principalAmount ≤ approvedLoan.totalInvested + 100 →
        l'.status = .approved) :=
  c2_invested_transition.1 approvedLoan "bob" 100 "inv-1" rfl
    (by norm_num [approvedLoan, baseLoan])

/-- C3: on an approved loan, addInvestment fails with the limit-exceeded error
exactly when the new total would strictly exceed the principal; an amount that
lands exactly on the principal is accepted (and funds the loan). -/
theorem c3_limit_exceeded (l : Loan) (inv : String) (a : ℚ) (fid : String)
    (hs : l.status = .approved) :
    ((l.AddInvestment inv a fid =
        .error "total investment amount would exceed loan principal") ↔
      l.principalAmount < l.totalInvested + a) ∧
    (l.totalInvested + a = l.principalAmount →
      ∃ l', l.AddInvestment inv a fid = .ok l' ∧ l'.status = .invested) := by
  constructor
  · constructor
    · intro he
      by_contra hx
      push_neg at hx
      by_cases hf : l.principalAmount ≤ l.totalInvested + a
      · rw [AddInvestment_ok_funded l inv a fid hs hx hf] at he
        exact Except.noConfusion he
      · rw [AddInvestment_ok_notFunded l inv a fid hs (not_le.mp hf)] at he
        exact Except.noConfusion he
    · intro hx
      exact AddInvestment_exceeds l inv a fid hs hx
  · intro heq
    exact ⟨_, AddInvestment_ok_funded l inv a fid hs heq.le heq.ge, rfl⟩

/-- C3 witness: on an approved loan with principal 100 and nothing invested,
an investment of 150 is rejected as limit-exceeded while an investment of
exactly 100 is accepted. -/
theorem c3_limit_exceeded_witness :
    (((approvedLoan.AddInvestment "bob" 150 "inv-1" =
        .error "total investment amount would exceed loan principal") ↔
      approvedLoan.principalAmount < approvedLoan.totalInvested + 150) ∧
    (approvedLoan.totalInvested + 150 = approvedLoan.principalAmount →
      ∃ l', approvedLoan.AddInvestment "bob" 150 "inv-1" = .ok l' ∧
        l'.status = .invested)) ∧
    (((approvedLoan.AddInvestment "bob" 100 "inv-2" =
        .error "total investment amount would exceed loan principal") ↔
      approvedLoan.principalAmount < approvedLoan.totalInvested + 100) ∧
    (approvedLoan.totalInvested + 100 = approvedLoan.principalAmount →
      ∃ l', approvedLoan.AddInvestment "bob" 100 "inv-2" = .ok l' ∧
        l'.status = .invested)) :=
  ⟨c3_limit_exceeded approvedLoan "bob" 150 "inv-1" rfl,
   c3_limit_exceeded approvedLoan "bob" 100 "inv-2" rfl⟩

/-- C5 counterexample: the aggregate does not re-check positivity — on a
concrete approved loan the non-positive amount -5 is accepted by
`AddInvestment` rather than rejected with an error. -/
theorem c5_counterexample :
    approvedLoan.status = .approved ∧ (-5 : ℚ) ≤ 0 ∧
      ∃ l', approvedLoan.AddInvestment "bob" (-5) "inv-9" = .ok l' :=
  ⟨rfl, by norm_num,
   ⟨_, AddInvestment_ok_notFunded approvedLoan "bob" (-5) "inv-9" rfl
      (by norm_num [approvedLoan, baseLoan])⟩⟩

/-- C5 (amended): the aggregate's addInvestment does not re-check that the
amount is positive: on an approved loan any non-positive amount is accepted
whenever `totalInvested + amount ≤ principalAmount`; positivity of the amount
is enforced only by the excluded validation layer. -/
theorem c5_amended_no_positivity_check (l : Loan) (inv : String) (a : ℚ)
    (fid : String) (hs : l.status = .approved) (_hnp : a ≤ 0)
    (hx : l.totalInvested + a ≤ l.principalAmount) :
    ∃ l', l.AddInvestment inv a fid = .ok l' := by
  by_cases hf : l.principalAmount ≤ l.totalInvested + a
  · exact ⟨_, AddInvestment_ok_funded l inv a fid hs hx hf⟩
  · exact ⟨_, AddInvestment_ok_notFunded l inv a fid hs (not_le.mp hf)⟩

/-- C5 witness: the amended theorem at the concrete approved loan and
amount -5. -/
theorem c5_amended_no_positivity_check_witness :
    ∃ l', approvedLoan.AddInvestment "bob" (-5) "inv-9" = .ok l' :=
  c5_amended_no_positivity_check approvedLoan "bob" (-5) "inv-9" rfl
    (by norm_num) (by norm_num [approvedLoan, baseLoan])

/-- C6: approve succeeds exactly on proposed loans; on every other status it
fails with the invalid-operation error, and in particular a second approve on
the result of a successful approve always fails with that error. -/
theorem c6_approve_guard (l : Loan) (d : ApprovalDetails) (now : Nat) :
    ((∃ l', approveLoan l d now = .ok l') ↔ l.status = .proposed) ∧
    (l.status ≠ .proposed →
      approveLoan l d now = .error "can only approve loans in proposed status") ∧
    (∀ l', approveLoan l d now = .ok l' →
      ∀ (d2 : ApprovalDetails) (now2 : Nat),
        approveLoan l' d2 now2 =
          .error "can only approve loans in proposed status") := by
  refine ⟨⟨?_, ?_⟩, approveLoan_not_proposed l d now, ?_⟩
  · rintro ⟨l', h⟩
    by_contra hs
    rw [approveLoan_not_proposed l d now hs] at h
    exact Except.noConfusion h
  · intro hs
    exact ⟨_, approveLoan_proposed l d now hs⟩
  · intro l' h d2 now2
    by_cases hs : l.status = .proposed
    · rw [approveLoan_proposed l d now hs] at h
      injection h with h
      exact approveLoan_not_proposed l' d2 now2 (by rw [← h]; simp)
    · rw [approveLoan_not_proposed l d now hs] at h
      exact Except.noConfusion h

/-- C6 witness: approving the concrete proposed loan succeeds and approving a
concrete already-approved loan fails with the invalid-operation error. -/
theorem c6_approve_guard_witness :
    (∃ l', approveLoan baseLoan sampleApproval 5 = .ok l') ∧
    approveLoan approvedLoan sampleApproval 5 =
      .error "can only approve loans in proposed status" :=
  ⟨(c6_approve_guard baseLoan sampleApproval 5).1.mpr rfl,
   (c6_approve_guard approvedLoan sampleApproval 5).2.1 (by decide)⟩

/-- C7: disburse succeeds exactly on invested, fully funded loans; otherwise
it fails with the invalid-operation error, and a second disburse on the result
of a successful disburse always fails and leaves the persisted loan — in
particular the first disbursement's details — unchanged. -/
theorem c7_disburse_guard (l : Loan) (d : DisbursementDetails) (now : Nat) :
    ((∃ l', disburseLoan l d now = .ok l') ↔
      (l.status = .invested ∧ l.principalAmount ≤ l.totalInvested)) ∧
    (¬ (l.status = .invested ∧ l.principalAmount ≤ l.totalInvested) →
      disburseLoan l d now = .error "can only disburse fully invested loans") ∧
    (∀ l', disburseLoan l d now = .ok l' →
      ∀ (d2 : DisbursementDetails) (now2 : Nat),
        disburseLoan l' d2 now2 =
          .error "can only disburse fully invested loans" ∧
        applyOp (.disburse d2 now2) l' = l' ∧
        (applyOp (.disburse d2 now2) l').disbursementDetails =
          l'.disbursementDetails) := by
  refine ⟨⟨?_, ?_⟩, disburseLoan_fail l d now, ?_⟩
  · rintro ⟨l', h⟩
    by_contra hc
    rw [disburseLoan_fail l d now hc] at h
    exact Except.noConfusion h
  · rintro ⟨hs, hf⟩
    exact ⟨_, disburseLoan_ok l d now hs hf⟩
  · intro l' h d2 now2
    by_cases hc : l.status = .invested ∧ l.principalAmount ≤ l.totalInvested
    · rw [disburseLoan_ok l d now hc.1 hc.2] at h
      injection h with h
      have hfail : disburseLoan l' d2 now2 =
          .error "can only disburse fully invested loans" :=
        disburseLoan_fail l' d2 now2 (by rw [← h]; rintro ⟨hbad, -⟩; simp at hbad)
      have hkeep : applyOp (.disburse d2 now2) l' = l' :=
        applyOp_of_error (.disburse d2 now2) l' _ hfail
      exact ⟨hfail, hkeep, by rw [hkeep]⟩
    · rw [disburseLoan_fail l d now hc] at h
      exact Except.noConfusion h

/-- C7 witness: disbursing the concrete fully invested loan succeeds and
disbursing a merely approved loan fails with the invalid-operation error. -/
theorem c7_disburse_guard_witness :
    (∃ l', disburseLoan investedLoan sampleDisbursement 7 = .ok l') ∧
    disburseLoan approvedLoan sampleDisbursement 7 =
      .error "can only disburse fully invested loans" :=
  ⟨(c7_disburse_guard investedLoan sampleDisbursement 7).1.mpr
      ⟨rfl, by norm_num [investedLoan, baseLoan]⟩,
   (c7_disburse_guard approvedLoan sampleDisbursement 7).2.1
      (by rintro ⟨hbad, -⟩; exact absurd hbad (by decide))⟩

/-- C9: every guarded operation that fails leaves the persisted aggregate
completely unchanged — in particular a rejected investment appends no
investment record and does not change `totalInvested`, the status, or the
agreement letter link. -/
theorem c9_failure_no_change (op : Op) (l : Loan) (e : String)
    (h : runOp op l = .error e) :
    applyOp op l = l ∧
    (applyOp op l).investments = l.investments ∧
    (applyOp op l).totalInvested = l.totalInvested ∧
    (applyOp op l).status = l.status ∧
    (applyOp op l).agreementLetterLink = l.agreementLetterLink := by
  have hkeep := applyOp_of_error op l e h
  exact ⟨hkeep, by rw [hkeep], by rw [hkeep], by rw [hkeep], by rw [hkeep]⟩

/-- C9 witness: a concrete rejected investment (investing while proposed)
changes nothing. -/
theorem c9_failure_no_change_witness :
    applyOp (Op.invest "bob" 10 "inv-1" 3) baseLoan = baseLoan ∧
    (applyOp (Op.invest "bob" 10 "inv-1" 3) baseLoan).investments =
      baseLoan.investments ∧
    (applyOp (Op.invest "bob" 10 "inv-1" 3) baseLoan).totalInvested =
      baseLoan.totalInvested ∧
    (applyOp (Op.invest "bob" 10 "inv-1" 3) baseLoan).status = baseLoan.status ∧
    (applyOp (Op.invest "bob" 10 "inv-1" 3) baseLoan).agreementLetterLink =
      baseLoan.agreementLetterLink :=
  c9_failure_no_change (Op.invest "bob" 10 "inv-1" 3) baseLoan
    "loan is not in approved status"
    (investInLoan_not_approved baseLoan "bob" 10 "inv-1" 3 (by decide))

/-- C10: a successful approve changes only the status, the approval details
and the last-updated timestamp, and a successful disburse changes only the
status, the disbursement details and the last-updated timestamp; in both the
fields borrowerId, principalAmount, rate, roi, totalInvested, investments and
agreementLetterLink (as well as id and createdAt) are unchanged. -/
theorem c10_frame :
    (∀ (l : Loan) (d : ApprovalDetails) (now : Nat) (l' : Loan),
      approveLoan l d now = .ok l' →
        l'.borrowerID = l.borrowerID ∧ l'.principalAmount = l.principalAmount ∧
        l'.rate = l.rate ∧ l'.roi = l.roi ∧
        l'.totalInvested = l.totalInvested ∧ l'.investments = l.investments ∧
        l'.agreementLetterLink = l.agreementLetterLink ∧ l'.id = l.id ∧
        l'.createdAt = l.createdAt ∧
        l'.disbursementDetails = l.disbursementDetails ∧
        l'.status = .approved ∧
        l'.approvalDetails = some { d with approvalDate := now } ∧
        l'.updatedAt = now) ∧
    (∀ (l : Loan) (d : DisbursementDetails) (now : Nat) (l' : Loan),
      disburseLoan l d now = .ok l' →
        l'.borrowerID = l.borrowerID ∧ l'.principalAmount = l.principalAmount ∧
        l'.rate = l.rate ∧ l'.roi = l.roi ∧
        l'.totalInvested = l.totalInvested ∧ l'.investments = l.investments ∧
        l'.agreementLetterLink = l.agreementLetterLink ∧ l'.id = l.id ∧
        l'.createdAt = l.createdAt ∧
        l'.approvalDetails = l.approvalDetails ∧
        l'.status = .disbursed ∧
        l'.disbursementDetails = some { d with disbursementDate := now } ∧
        l'.updatedAt = now) := by
  constructor
  · intro l d now l' h
    by_cases hs : l.status = .proposed
    · rw [approveLoan_proposed l d now hs] at h
      injection h with h
      rw [← h]
      exact ⟨rfl, rfl, rfl, rfl, rfl, rfl, rfl, rfl, rfl, rfl, rfl, rfl, rfl⟩
    · rw [approveLoan_not_proposed l d now hs] at h
      exact Except.noConfusion h
  · intro l d now l' h
    by_cases hc : l.status = .invested ∧ l.principalAmount ≤ l.totalInvested
    · rw [disburseLoan_ok l d now hc.1 hc.2] at h
      injection h with h
      rw [← h]
      exact ⟨rfl, rfl, rfl, rfl, rfl, rfl, rfl, rfl, rfl, rfl, rfl, rfl, rfl⟩
    · rw [disburseLoan_fail l d now hc] at h
      exact Except.noConfusion h

/-- C10 witness: the frame conditions at a concrete approve and a concrete
disburse. -/
theorem c10_frame_witness :
    (∃ l', approveLoan baseLoan sampleApproval 5 = .ok l' ∧
      l'.principalAmount = baseLoan.principalAmount ∧
      l'.totalInvested = baseLoan.totalInvested ∧
      l'.agreementLetterLink = baseLoan.agreementLetterLink) ∧
    (∃ l', disburseLoan investedLoan sampleDisbursement 7 = .ok l' ∧
      l'.principalAmount = investedLoan.principalAmount ∧
      l'.totalInvested = investedLoan.totalInvested ∧
      l'.agreementLetterLink = investedLoan.agreementLetterLink) := by
  constructor
  · have hok := approveLoan_proposed baseLoan sampleApproval 5 rfl
    have hframe := c10_frame.1 baseLoan sampleApproval 5 _ hok
    exact ⟨_, hok, hframe.2.1, hframe.2.2.2.2.1, hframe.2.2.2.2.2.2.1⟩
  · have hok := disburseLoan_ok investedLoan sampleDisbursement 7 rfl
      (by norm_num [investedLoan, baseLoan])
    have hframe := c10_frame.2 investedLoan sampleDisbursement 7 _ hok
    exact ⟨_, hok, hframe.2.1, hframe.2.2.2.2.1, hframe.2.2.2.2.2.2.1⟩

/-- AgreementInv: once a loan is invested or disbursed, its agreement letter
link is the value derived from its id. -/
def AgreementInv (l : Loan) : Prop :=
  (l.status = .invested ∨ l.status = .disbursed) →
    l.agreementLetterLink = generateAgreementLetterLink l.id

/-- PreFundedEmpty: while a loan is still proposed or approved, its agreement
letter link is empty. -/
def PreFundedEmpty (l : Loan) : Prop :=
  (l.status = .proposed ∨ l.status = .approved) → l.agreementLetterLink = ""

/-- Every guarded operation preserves `AgreementInv`. -/
theorem agreementInv_applyOp (op : Op) (l : Loan) (h : AgreementInv l) :
    AgreementInv (applyOp op l) := by
  cases op with
  | approve d now =>
      by_cases hs : l.status = .proposed
      · rw [applyOp_of_ok (.approve d now) l _ (approveLoan_proposed l d now hs)]
        intro hc
        simp at hc
      · rwa [applyOp_of_error (.approve d now) l _ (approveLoan_not_proposed l d now hs)]
  | invest inv a fid now =>
      by_cases hs : l.status = .approved
      · by_cases hx : l.totalInvested + a > l.principalAmount
        · rwa [applyOp_of_error (.invest inv a fid now) l _
            (investInLoan_exceeds l inv a fid now hs hx)]
        · have hx' : l.totalInvested + a ≤ l.principalAmount := not_lt.mp hx
          by_cases hf : l.principalAmount ≤ l.totalInvested + a
          · rw [applyOp_of_ok (.invest inv a fid now) l _
              (investInLoan_ok_funded l inv a fid now hs hx' hf)]
            intro _
            rfl
          · rw [applyOp_of_ok (.invest inv a fid now) l _
              (investInLoan_ok_notFunded l inv a fid now hs (not_le.mp hf))]
            intro hc
            simp [hs] at hc
      · rwa [applyOp_of_error (.invest inv a fid now) l _
          (investInLoan_not_approved l inv a fid now hs)]
  | disburse d now =>
      by_cases hc : l.status = .invested ∧ l.principalAmount ≤ l.totalInvested
      · rw [applyOp_of_ok (.disburse d now) l _ (disburseLoan_ok l d now hc.1 hc.2)]
        intro _
        exact h (Or.inl hc.1)
      · rwa [applyOp_of_error (.disburse d now) l _ (disburseLoan_fail l d now hc)]
  | update u now =>
      by_cases hs : l.status = .proposed
      · rw [applyOp_of_ok (.update u now) l _ (updateLoan_proposed l u now hs)]
        intro hc
        simp [hs] at hc
      · rwa [applyOp_of_error (.update u now) l _ (updateLoan_not_proposed l u now hs)]
  | delete => rwa [applyOp_delete]

/-- Every guarded operation other than update preserves `PreFundedEmpty`. -/
theorem preFundedEmpty_applyOp (op : Op) (l : Loan) (hni : op.isUpdate = false)
    (h : PreFundedEmpty l) : PreFundedEmpty (applyOp op l) := by
  cases op with
  | approve d now =>
      by_cases hs : l.status = .proposed
      · rw [applyOp_of_ok (.approve d now) l _ (approveLoan_proposed l d now hs)]
        intro _
        exact h (Or.inl hs)
      · rwa [applyOp_of_error (.approve d now) l _ (approveLoan_not_proposed l d now hs)]
  | invest inv a fid now =>
      by_cases hs : l.status = .approved
      · by_cases hx : l.totalInvested + a > l.principalAmount
        · rwa [applyOp_of_error (.invest inv a fid now) l _
            (investInLoan_exceeds l inv a fid now hs hx)]
        · have hx' : l.totalInvested + a ≤ l.principalAmount := not_lt.mp hx
          by_cases hf : l.principalAmount ≤ l.totalInvested + a
          · rw [applyOp_of_ok (.invest inv a fid now) l _
              (investInLoan_ok_funded l inv a fid now hs hx' hf)]
            intro hc
            simp at hc
          · rw [applyOp_of_ok (.invest inv a fid now) l _
              (investInLoan_ok_notFunded l inv a fid now hs (not_le.mp hf))]
            intro _
            exact h (Or.inr hs)
      · rwa [applyOp_of_error (.invest inv a fid now) l _
          (investInLoan_not_approved l inv a fid now hs)]
  | disburse d now =>
      by_cases hc : l.status = .invested ∧ l.principalAmount ≤ l.totalInvested
      · rw [applyOp_of_ok (.disburse d now) l _ (disburseLoan_ok l d now hc.1 hc.2)]
        intro hco
        simp at hco
      · rwa [applyOp_of_error (.disburse d now) l _ (disburseLoan_fail l d now hc)]
  | update u now => simp [Op.isUpdate] at hni
  | delete => rwa [applyOp_delete]

/-- A sequence of guarded operations preserves `AgreementInv`. -/
theorem agreementInv_applyOps (ops : List Op) (l : Loan) (h : AgreementInv l) :
    AgreementInv (applyOps ops l) := by
  induction ops generalizing l with
  | nil => exact h
  | cons op rest ih =>
      simpa [applyOps] using ih (applyOp op l) (agreementInv_applyOp op l h)

/-- A sequence of non-update guarded operations preserves `PreFundedEmpty`. -/
theorem preFundedEmpty_applyOps (ops : List Op) (l : Loan)
    (hni : ∀ op ∈ ops, op.isUpdate = false) (h : PreFundedEmpty l) :
    PreFundedEmpty (applyOps ops l) := by
  induction ops generalizing l with
  | nil => exact h
  | cons op rest ih =>
      have hstep := preFundedEmpty_applyOp op l (hni op (by simp)) h
      have hrest : ∀ o ∈ rest, o.isUpdate = false := fun o ho => hni o (by simp [ho])
      simpa [applyOps] using ih (applyOp op l) hrest hstep

/-- tamperUpdate: an update request that only sets the agreement letter link. -/
def tamperUpdate : UpdateLoanRequest :=
  { principalAmount := none, rate := none, roi := none,
    agreementLetterLink := some "https://tampered.example.com/x.pdf" }

/-- C8 counterexample: a caller-supplied update while the loan is still
proposed (permitted by `CanUpdate`) makes the agreement letter link non-empty
before the loan is anywhere near fully invested. -/
theorem c8_counterexample :
    (applyOps [Op.update tamperUpdate 1] (createLoan baseLoan)).status =
      .proposed ∧
    (applyOps [Op.update tamperUpdate 1] (createLoan baseLoan)).totalInvested <
      (applyOps [Op.update tamperUpdate 1] (createLoan baseLoan)).principalAmount ∧
    (applyOps [Op.update tamperUpdate 1]
      (createLoan baseLoan)).agreementLetterLink ≠ "" := by decide

/-- C8 (amended): once a loan reaches invested or disbursed status, its
agreement letter link equals the value deterministically derived from its id
(format `https://example.com/agreements/loan_<id>_agreement.pdf`) and never
changes thereafter; before funding the link is empty provided it was empty at
creation and no update operation (permitted only while proposed) set it. -/
theorem c8_agreement_link :
    (∀ loanID : String, generateAgreementLetterLink loanID =
      "https://example.com/agreements/loan_" ++ loanID ++ "_agreement.pdf") ∧
    (∀ (l0 : Loan) (ops : List Op),
      ((applyOps ops (createLoan l0)).status = .invested ∨
        (applyOps ops (createLoan l0)).status = .disbursed) →
      (applyOps ops (createLoan l0)).agreementLetterLink =
        generateAgreementLetterLink (applyOps ops (createLoan l0)).id) ∧
    (∀ (l0 : Loan) (ops : List Op),
      l0.agreementLetterLink = "" → (∀ op ∈ ops, op.isUpdate = false) →
      ((applyOps ops (createLoan l0)).status = .proposed ∨
        (applyOps ops (createLoan l0)).status = .approved) →
      (applyOps ops (createLoan l0)).agreementLetterLink = "") := by
  refine ⟨fun _ => rfl, ?_, ?_⟩
  · intro l0 ops
    exact agreementInv_applyOps ops (createLoan l0) (fun hc => by simp [createLoan] at hc)
  · intro l0 ops h0 hni
    exact preFundedEmpty_applyOps ops (createLoan l0) hni
      (fun _ => by simpa [createLoan] using h0)

/-- C8 witness: a concrete fully funding run yields the derived link, and a
concrete update-free pre-funding run keeps the link empty. -/
theorem c8_agreement_link_witness :
    (applyOps [Op.approve sampleApproval 1, Op.invest "bob" 100 "inv-1" 2]
      (createLoan baseLoan)).agreementLetterLink =
      generateAgreementLetterLink
        (applyOps [Op.approve sampleApproval 1, Op.invest "bob" 100 "inv-1" 2]
          (createLoan baseLoan)).id ∧
    (applyOps [Op.approve sampleApproval 1]
      (createLoan baseLoan)).agreementLetterLink = "" :=
  ⟨c8_agreement_link.2.1 baseLoan
      [Op.approve sampleApproval 1, Op.invest "bob" 100 "inv-1" 2]
      (Or.inl (by
        norm_num [applyOps, applyOp, runOp, approveLoan, investInLoan,
          Loan.AddInvestment, createLoan, baseLoan, sampleApproval,
          Loan.CanApprove, Loan.CanInvest, FSM.SetCurrentState, FSM.Transition,
          FSM.CanTransition, NewFSM, FSM.GetCurrentState])),
   c8_agreement_link.2.2 baseLoan [Op.approve sampleApproval 1] rfl
      (by simp [Op.isUpdate]) (Or.inr (by decide))⟩
